import Mathlib

/-!
Shallow embedding of the `StratifiedBalancer` core
(`src/packages/backend/core/randomization.py`) and of the `assign` HTTP
endpoint wrapper (`src/packages/backend/main.py`).

Item-type identifiers are Python strings compared by lexicographic order;
we model them as an arbitrary decidable linear order `α` (instantiated at
`Nat` in concrete evaluations).  Participant uuids and stratum identifiers
are only ever compared for equality, so they stay `String`.

The database is modelled as an explicit state: the `allocations` relation
as a list of rows (insertion order preserved), and the two tally relations
as partial maps (`Option Nat`), `none` meaning "no row exists".
-/

namespace Surveys

variable {α : Type} [LinearOrder α]

/-- The stored `assignment` value of an allocations row: the chosen pair and
the stratum, as serialized to the jsonb column by `assign_pair`. -/
structure Assignment (α : Type) where
  pair : List α
  stratum : String
  deriving DecidableEq

/-- A row of the `allocations` relation. -/
structure AllocRow (α : Type) where
  uuid : String
  stratum : String
  assignment : Assignment α
  deriving DecidableEq

/-- The persistent state touched by the balancer: the `allocations` rows,
the `ap_type_counts` map keyed by (stratum, ap_type) and the `pair_counts`
map keyed by (stratum, ap_a, ap_b).  `none` models an absent row. -/
structure DBState (α : Type) where
  allocations : List (AllocRow α)
  apTypeCounts : String → α → Option Nat
  pairCounts : String → α → α → Option Nat

/-- A database with no rows at all. -/
def DBState.empty (α : Type) : DBState α :=
  { allocations := []
    apTypeCounts := fun _ _ => none
    pairCounts := fun _ _ _ => none }

/-- Errors raised inside the balancer; both failure points in the source
raise Python `ValueError` (`min() arg is an empty sequence` from `min` on an
empty pair list, and the explicit pair-length check). -/
inductive BalancerError
  | valueError (msg : String)
  deriving DecidableEq

/-- Models `stratum = stratum or "global"` (randomization.py line 67 and
line 166).  A Python `None`/absent stratum is rendered as `""`; only `None`
and the empty string are falsy, so any non-empty string - including a
whitespace-only one - is kept as is. -/
def normalizeStratum (s : String) : String :=
  if s = "" then "global" else s

/-- The existence check (randomization.py lines 70-79):
`SELECT assignment FROM allocations WHERE uuid = %s AND stratum = %s`. -/
def findAllocation (st : DBState α) (uuid stratum : String) :
    Option (AllocRow α) :=
  st.allocations.find? (fun r => r.uuid == uuid && r.stratum == stratum)

/-- Tally lookup (randomization.py lines 87-98): the stored count for
(stratum, ap_type), an absent row read as 0. -/
def getApCount (st : DBState α) (stratum : String) (t : α) : Nat :=
  (st.apTypeCounts stratum t).getD 0

/-- The double loop of randomization.py lines 101-107: all pairs (i, j) with
i < j, in loop order.  The source stores 4-tuples
`(min(a,b), max(a,b), a, b)`; we keep the raw `(a, b)` and canonicalize at
the use sites, which is equivalent because the score of a pair only depends
on the unordered pair. -/
def allPairs : List α → List (α × α)
  | [] => []
  | a :: rest => rest.map (fun b => (a, b)) ++ allPairs rest

/-- The score of a candidate pair (randomization.py line 116):
`max(count_a, count_b)`. -/
def pairScore (cnt : α → Nat) (p : α × α) : Nat :=
  max (cnt p.1) (cnt p.2)

/-- Python's `min` over a list of naturals: `none` on the empty list, where
Python raises `ValueError: min() arg is an empty sequence`. -/
def listMin : List Nat → Option Nat
  | [] => none
  | x :: xs => some (xs.foldl min x)

/-- The minimum score over all candidate pairs (randomization.py line 120). -/
def minScore (cnt : α → Nat) (apList : List α) : Option Nat :=
  listMin ((allPairs apList).map (pairScore cnt))

/-- The tied minimal pairs, in canonical `(min, max)` component order and in
enumeration order (randomization.py lines 121-125, which collect the sorted
components of every scored pair whose score equals the minimum).  Empty
exactly when the pair list is empty, i.e. when Python's `min` raises. -/
def bestPairs (cnt : α → Nat) (apList : List α) : List (α × α) :=
  match minScore cnt apList with
  | none => []
  | some m =>
      (allPairs apList).filterMap (fun p =>
        if pairScore cnt p = m then some (p.1 ⊓ p.2, p.1 ⊔ p.2) else none)

/-- The fresh-allocation half of `assign_pair` (randomization.py lines
85-148), entered when the existence check found no row; `stratum` is
already normalized.  `random.choice(best_pairs)` is modelled by an
arbitrary index `pick`, reduced modulo the number of tied pairs, so the
possible outcomes are exactly the tied minimal pairs.

The insert (lines 137-145) is
`INSERT INTO allocations(uuid, stratum, assignment) VALUES (...)
 ON CONFLICT (uuid) DO NOTHING`: its declared conflict target is the uuid
column alone (executing this statement requires a unique index on uuid), so
the new row is dropped whenever any row with the same uuid already exists,
regardless of that row's stratum, and the freshly computed assignment is
returned either way - the source never re-reads the winning row. -/
def freshAssign (st : DBState α) (uuid stratum : String) (apList : List α)
    (pick : Nat) : Except BalancerError (Assignment α) × DBState α :=
  let cnt := getApCount st stratum
  match bestPairs cnt apList with
  | [] => (.error (.valueError "min() arg is an empty sequence"), st)
  | q :: qs =>
      let best := q :: qs
      let selected := best.getD (pick % best.length) q
      let asg : Assignment α := { pair := [selected.1, selected.2], stratum := stratum }
      if st.allocations.any (fun r => r.uuid == uuid) then
        (.ok asg, st)
      else
        (.ok asg,
         { st with allocations :=
            st.allocations ++ [{ uuid := uuid, stratum := stratum, assignment := asg }] })

/-- `StratifiedBalancer.assign_pair` (randomization.py lines 45-148):
normalize the stratum, return any existing allocation for
(uuid, stratum) verbatim, otherwise compute and insert a fresh one. -/
def assignPair (st : DBState α) (uuid stratum0 : String) (apList : List α)
    (pick : Nat) : Except BalancerError (Assignment α) × DBState α :=
  let stratum := normalizeStratum stratum0
  match findAllocation st uuid stratum with
  | some row => (.ok row.assignment, st)
  | none => freshAssign st uuid stratum apList pick

/-- The `ap_type_counts` upsert of randomization.py lines 183-195:
`INSERT ... VALUES (stratum, ap_type, 1) ON CONFLICT (stratum, ap_type)
DO UPDATE SET count = count + 1`. -/
def incrementApType (st : DBState α) (stratum : String) (t : α) :
    DBState α :=
  { st with apTypeCounts := fun s x =>
      if s = stratum ∧ x = t then some ((st.apTypeCounts s x).getD 0 + 1)
      else st.apTypeCounts s x }

/-- The `pair_counts` upsert of randomization.py lines 169-180, keyed by the
canonicalized (stratum, ap_a, ap_b). -/
def incrementPairKey (st : DBState α) (stratum : String) (a b : α) :
    DBState α :=
  { st with pairCounts := fun s x y =>
      if s = stratum ∧ x = a ∧ y = b then some ((st.pairCounts s x y).getD 0 + 1)
      else st.pairCounts s x y }

/-- `StratifiedBalancer.increment_pair_count` (randomization.py lines
150-197): raise `ValueError` unless the pair has exactly 2 items; otherwise
canonicalize to `(min, max)`, normalize the stratum, upsert the pair tally,
then upsert the item tally of each pair element in order. -/
def increment_pair_count (st : DBState α) (stratum0 : String)
    (pair : List α) : Except BalancerError Unit × DBState α :=
  match pair with
  | [p0, p1] =>
      let ap_a := p0 ⊓ p1
      let ap_b := p0 ⊔ p1
      let stratum := normalizeStratum stratum0
      let st1 := incrementPairKey st stratum ap_a ap_b
      let st2 := incrementApType st1 stratum p0
      let st3 := incrementApType st2 stratum p1
      (.ok (), st3)
  | _ => (.error (.valueError "Pair must contain exactly 2 items"), st)

/-- Errors surfaced by the HTTP endpoint (main.py): `badRequest` models
`HTTPException(status_code=400, ...)` - a client-input failure - and
`internal` models the catch-all `HTTPException(status_code=500, str(e))`. -/
inductive ApiError
  | badRequest (msg : String)
  | internal (msg : String)
  deriving DecidableEq

/-- The message carried by a balancer error, as `str(e)` would render it. -/
def errMessage : BalancerError → String
  | .valueError m => m

/-- The `/api/studies/avalanche_2025/assign` endpoint (main.py lines
50-90): read `p_uuid` (no default), `p_stratum` (default "global") and
`p_ap_list` (default []) from the request; `if not uuid` → 400,
`if not ap_list` → 400; any exception escaping the balancer → 500. -/
def assignEndpoint (st : DBState α) (p_uuid p_stratum : Option String)
    (p_ap_list : Option (List α)) (pick : Nat) :
    Except ApiError (Assignment α) × DBState α :=
  let uuid := p_uuid.getD ""
  let stratum := p_stratum.getD "global"
  let apList := p_ap_list.getD []
  if uuid = "" then (.error (.badRequest "p_uuid is required"), st)
  else if apList = [] then (.error (.badRequest "p_ap_list is required"), st)
  else
    match assignPair st uuid stratum apList pick with
    | (.ok asg, st') => (.ok asg, st')
    | (.error e, st') => (.error (.internal (errMessage e)), st')

/-- Whether an endpoint outcome is a 400 client-input failure. -/
def isClientInputError : Except ApiError (Assignment α) × DBState α → Bool
  | (.error (.badRequest _), _) => true
  | _ => false

/-- One full protocol round as exercised by the spec's testable properties:
`assign` for a participant followed by `record_response` with the returned
pair; `none` if either step fails. -/
def roundState (st : DBState α) (uuid stratum : String)
    (apList : List α) (pick : Nat) : Option (DBState α) :=
  match assignPair st uuid stratum apList pick with
  | (.ok asg, st') =>
      match increment_pair_count st' stratum asg.pair with
      | (.ok _, st'') => some st''
      | (.error _, _) => none
  | (.error _, _) => none

/-- The pair assigned by an `assign` call, state dropped. -/
def assignedPair (r : Except BalancerError (Assignment α) × DBState α) :
    Option (List α) :=
  match r with
  | (.ok asg, _) => some asg.pair
  | (.error _, _) => none

/-- An empty database over `Nat` item identifiers, for concrete evaluation. -/
def emptyNat : DBState Nat := DBState.empty Nat

/-- A database holding one allocation for participant "u" in stratum "s1"
(and no tallies), used to exercise the uuid-conflict path of the insert. -/
def twoStrataState : DBState Nat :=
  { allocations := [{ uuid := "u", stratum := "s1",
                      assignment := { pair := [0, 1], stratum := "s1" } }]
    apTypeCounts := fun _ _ => none
    pairCounts := fun _ _ _ => none }

/-- The database after one committed allocation of pair [0, 1] to
participant "u" in stratum "s": the state a racing second call observes
after losing the insert. -/
def racedState : DBState Nat :=
  { allocations := [{ uuid := "u", stratum := "s",
                      assignment := { pair := [0, 1], stratum := "s" } }]
    apTypeCounts := fun _ _ => none
    pairCounts := fun _ _ _ => none }

/-- The pair assigned in a second round: round 1 runs assign+record for
participant "u1" with tie-break `pick1`, then participant "u2" calls assign
with tie-break `pick2`; the candidate pool is the fixed 3-item pool
[0, 1, 2] in stratum "novice". -/
def secondRoundPair (pick1 pick2 : Nat) : Option (List Nat) :=
  match roundState emptyNat "u1" "novice" [0, 1, 2] pick1 with
  | some st1 => assignedPair (assignPair st1 "u2" "novice" [0, 1, 2] pick2)
  | none => none

/-- The database after round 1 (assign + record for "u1" over the pool
[0, 1, 2] in stratum "novice", tie-break index 0): tallies (1, 1, 0). -/
def afterRound1 : DBState Nat :=
  match roundState emptyNat "u1" "novice" [0, 1, 2] 0 with
  | some st => st
  | none => emptyNat

/-- The tally of item `t` in stratum "novice" after two full rounds
(assign + record for "u1" with tie-break `pick1`, then for "u2" with
tie-break `pick2`) over the fixed pool [0, 1, 2]. -/
def twoRoundCount (pick1 pick2 : Nat) (t : Nat) : Option Nat :=
  match roundState emptyNat "u1" "novice" [0, 1, 2] pick1 with
  | some st1 =>
      match roundState st1 "u2" "novice" [0, 1, 2] pick2 with
      | some st2 => some (getApCount st2 "novice" t)
      | none => none
  | none => none

/-! Helper lemmas about the pair enumeration and the minimum computation. -/

omit [LinearOrder α] in
theorem mem_allPairs {l : List α} {p : α × α} (h : p ∈ allPairs l) :
    p.1 ∈ l ∧ p.2 ∈ l := by
  induction l with
  | nil => simp [allPairs] at h
  | cons a rest ih =>
    simp only [allPairs, List.mem_append, List.mem_map] at h
    rcases h with ⟨b, hb, rfl⟩ | h
    · exact ⟨List.mem_cons_self _ _, List.mem_cons_of_mem _ hb⟩
    · obtain ⟨h1, h2⟩ := ih h
      exact ⟨List.mem_cons_of_mem _ h1, List.mem_cons_of_mem _ h2⟩

omit [LinearOrder α] in
theorem mem_allPairs_ne {l : List α} (hl : l.Nodup) {p : α × α}
    (h : p ∈ allPairs l) : p.1 ≠ p.2 := by
  induction l with
  | nil => simp [allPairs] at h
  | cons a rest ih =>
    obtain ⟨ha, hrest⟩ := List.nodup_cons.mp hl
    simp only [allPairs, List.mem_append, List.mem_map] at h
    rcases h with ⟨b, hb, rfl⟩ | h
    · intro he
      apply ha
      have hab : a = b := he
      exact hab.symm ▸ hb
    · exact ih hrest h

omit [LinearOrder α] in
theorem allPairs_of_mem {l : List α} {x y : α} (hx : x ∈ l) (hy : y ∈ l)
    (hxy : x ≠ y) : (x, y) ∈ allPairs l ∨ (y, x) ∈ allPairs l := by
  induction l with
  | nil => simp at hx
  | cons a rest ih =>
    rcases List.mem_cons.mp hx with rfl | hx'
    · rcases List.mem_cons.mp hy with rfl | hy'
      · exact absurd rfl hxy
      · exact Or.inl (List.mem_append_left _
          (List.mem_map_of_mem (fun b => (x, b)) hy'))
    · rcases List.mem_cons.mp hy with rfl | hy'
      · exact Or.inr (List.mem_append_left _
          (List.mem_map_of_mem (fun b => (y, b)) hx'))
      · rcases ih hx' hy' with h | h
        · exact Or.inl (List.mem_append_right _ h)
        · exact Or.inr (List.mem_append_right _ h)

omit [LinearOrder α] in
theorem allPairs_ne_nil {l : List α} (h : 2 ≤ l.length) : allPairs l ≠ [] := by
  match l, h with
  | a :: b :: rest, _ => simp [allPairs]

theorem foldl_min_le_init (xs : List Nat) (a : Nat) : xs.foldl min a ≤ a := by
  induction xs generalizing a with
  | nil => simp
  | cons x xs ih =>
    calc xs.foldl min (min a x) ≤ min a x := ih _
    _ ≤ a := min_le_left _ _

theorem foldl_min_le {xs : List Nat} {x : Nat} (hx : x ∈ xs) (a : Nat) :
    xs.foldl min a ≤ x := by
  induction xs generalizing a with
  | nil => simp at hx
  | cons y ys ih =>
    rcases List.mem_cons.mp hx with rfl | hx'
    · calc ys.foldl min (min a x) ≤ min a x := foldl_min_le_init _ _
      _ ≤ x := min_le_right _ _
    · exact ih hx' _

theorem foldl_min_mem (xs : List Nat) (a : Nat) :
    xs.foldl min a = a ∨ xs.foldl min a ∈ xs := by
  induction xs generalizing a with
  | nil => exact Or.inl rfl
  | cons x xs ih =>
    rcases ih (min a x) with h | h
    · rcases Nat.le_total a x with hax | hxa
      · left
        rw [List.foldl_cons, h, min_eq_left hax]
      · right
        rw [List.foldl_cons, h, min_eq_right hxa]
        exact List.mem_cons_self _ _
    · right
      exact List.mem_cons_of_mem _ h

theorem listMin_le {xs : List Nat} {m x : Nat} (hm : listMin xs = some m)
    (hx : x ∈ xs) : m ≤ x := by
  cases xs with
  | nil => simp [listMin] at hm
  | cons y ys =>
    simp only [listMin, Option.some.injEq] at hm
    subst hm
    rcases List.mem_cons.mp hx with rfl | hx'
    · exact foldl_min_le_init _ _
    · exact foldl_min_le hx' _

theorem listMin_mem {xs : List Nat} {m : Nat} (hm : listMin xs = some m) :
    m ∈ xs := by
  cases xs with
  | nil => simp [listMin] at hm
  | cons y ys =>
    simp only [listMin, Option.some.injEq] at hm
    subst hm
    rcases foldl_min_mem ys y with h | h
    · rw [h]
      exact List.mem_cons_self _ _
    · exact List.mem_cons_of_mem _ h

theorem listMin_isSome {xs : List Nat} (h : xs ≠ []) :
    ∃ m, listMin xs = some m := by
  cases xs with
  | nil => exact absurd rfl h
  | cons y ys => exact ⟨_, rfl⟩

omit [LinearOrder α] in
theorem minScore_le {cnt : α → Nat} {l : List α} {m : Nat}
    (hm : minScore cnt l = some m) {q : α × α} (hq : q ∈ allPairs l) :
    m ≤ pairScore cnt q :=
  listMin_le hm (List.mem_map_of_mem _ hq)

omit [LinearOrder α] in
theorem minScore_some (cnt : α → Nat) {l : List α} (h : 2 ≤ l.length) :
    ∃ m, minScore cnt l = some m := by
  apply listMin_isSome
  intro hnil
  exact allPairs_ne_nil h (List.map_eq_nil_iff.mp hnil)

theorem pairScore_canon (cnt : α → Nat) (x y : α) :
    pairScore cnt (x ⊓ y, x ⊔ y) = max (cnt x) (cnt y) := by
  rcases le_total x y with h | h
  · simp [pairScore, inf_eq_left.mpr h, sup_eq_right.mpr h]
  · simp [pairScore, inf_eq_right.mpr h, sup_eq_left.mpr h, max_comm (cnt y) (cnt x)]

theorem mem_bestPairs_iff {cnt : α → Nat} {l : List α} {m : Nat}
    (hm : minScore cnt l = some m) {p : α × α} :
    p ∈ bestPairs cnt l ↔
      ∃ q, q ∈ allPairs l ∧ pairScore cnt q = m ∧ p = (q.1 ⊓ q.2, q.1 ⊔ q.2) := by
  rw [bestPairs, hm]
  constructor
  · intro hp
    rcases List.mem_filterMap.mp hp with ⟨q, hq, hfq⟩
    by_cases hs : pairScore cnt q = m
    · refine ⟨q, hq, hs, ?_⟩
      simpa [hs] using hfq.symm
    · simp [hs] at hfq
  · rintro ⟨q, hq, hs, rfl⟩
    exact List.mem_filterMap.mpr ⟨q, hq, by simp [hs]⟩

theorem bestPairs_ne_nil (cnt : α → Nat) {l : List α} (h : 2 ≤ l.length) :
    bestPairs cnt l ≠ [] := by
  obtain ⟨m, hm⟩ := minScore_some cnt h
  have hmem : m ∈ (allPairs l).map (pairScore cnt) := listMin_mem hm
  rcases List.mem_map.mp hmem with ⟨q, hq, hsq⟩
  intro hnil
  have hin : (q.1 ⊓ q.2, q.1 ⊔ q.2) ∈ bestPairs cnt l :=
    (mem_bestPairs_iff hm).mpr ⟨q, hq, hsq, rfl⟩
  rw [hnil] at hin
  simp at hin

theorem getD_mod_mem {β : Type _} {l : List β} (h : l ≠ []) (n : Nat) (d : β) :
    l.getD (n % l.length) d ∈ l := by
  have hlt : n % l.length < l.length := Nat.mod_lt _ (List.length_pos.mpr h)
  rw [List.getD_eq_getElem l d hlt]
  exact List.getElem_mem hlt

/-! Bridging lemmas describing the control flow of `assign_pair`. -/

theorem assignPair_of_found {st : DBState α} {uuid stratum0 : String}
    {apList : List α} {pick : Nat} {row : AllocRow α}
    (h : findAllocation st uuid (normalizeStratum stratum0) = some row) :
    assignPair st uuid stratum0 apList pick = (.ok row.assignment, st) := by
  simp only [assignPair, h]

theorem assignPair_of_fresh {st : DBState α} {uuid stratum0 : String}
    {apList : List α} {pick : Nat}
    (h : findAllocation st uuid (normalizeStratum stratum0) = none) :
    assignPair st uuid stratum0 apList pick
      = freshAssign st uuid (normalizeStratum stratum0) apList pick := by
  simp only [assignPair, h]

theorem freshAssign_result {st : DBState α} {uuid stratum : String}
    {apList : List α} {q : α × α} {qs : List (α × α)} (pick : Nat)
    (hbp : bestPairs (getApCount st stratum) apList = q :: qs) :
    (freshAssign st uuid stratum apList pick).1
      = .ok { pair := [((q :: qs).getD (pick % (q :: qs).length) q).1,
                       ((q :: qs).getD (pick % (q :: qs).length) q).2],
              stratum := stratum } := by
  simp only [freshAssign, hbp]
  split <;> rfl

/-- The pair put into the result of a fresh assignment is a member of the
tied minimal pairs. -/
theorem freshAssign_selected_mem {st : DBState α} {uuid stratum : String}
    {apList : List α} (pick : Nat) (hlen : 2 ≤ apList.length) :
    ∃ p ∈ bestPairs (getApCount st stratum) apList,
      (freshAssign st uuid stratum apList pick).1
        = .ok { pair := [p.1, p.2], stratum := stratum } := by
  have hne : bestPairs (getApCount st stratum) apList ≠ [] :=
    bestPairs_ne_nil _ hlen
  rcases hq : bestPairs (getApCount st stratum) apList with _ | ⟨q, qs⟩
  · exact absurd hq hne
  · refine ⟨(q :: qs).getD (pick % (q :: qs).length) q, ?_, ?_⟩
    · exact getD_mod_mem (List.cons_ne_nil _ _) pick q
    · exact freshAssign_result pick hq

/-- Every tied minimal pair is produced by some tie-break index. -/
theorem freshAssign_mem_possible {st : DBState α} {uuid stratum : String}
    {apList : List α} {p : α × α}
    (hp : p ∈ bestPairs (getApCount st stratum) apList) :
    ∃ pick, (freshAssign st uuid stratum apList pick).1
      = .ok { pair := [p.1, p.2], stratum := stratum } := by
  rcases hq : bestPairs (getApCount st stratum) apList with _ | ⟨q, qs⟩
  · rw [hq] at hp
    simp at hp
  · rw [hq] at hp
    obtain ⟨i, hi, hgi⟩ := List.mem_iff_getElem.mp hp
    refine ⟨i, ?_⟩
    have hmod : i % (q :: qs).length = i := Nat.mod_eq_of_lt hi
    rw [freshAssign_result i hq, hmod, List.getD_eq_getElem _ q hi, hgi]

/-- A tied minimal pair is built from two distinct candidates and, under a
duplicate-free candidate list, scores exactly the minimum; conversely any
distinct candidate pair scoring the minimum appears canonicalized among the
tied minimal pairs. -/
theorem mem_bestPairs_shape {cnt : α → Nat} {l : List α} {m : Nat}
    (hm : minScore cnt l = some m) (hnd : l.Nodup) {p : α × α}
    (hp : p ∈ bestPairs cnt l) :
    p.1 ∈ l ∧ p.2 ∈ l ∧ p.1 < p.2 ∧ max (cnt p.1) (cnt p.2) = m := by
  obtain ⟨q, hq, hsq, rfl⟩ := (mem_bestPairs_iff hm).mp hp
  obtain ⟨h1, h2⟩ := mem_allPairs hq
  have hne : q.1 ≠ q.2 := mem_allPairs_ne hnd hq
  have hmem1 : q.1 ⊓ q.2 ∈ l := by
    rcases le_total q.1 q.2 with h | h
    · rwa [inf_eq_left.mpr h]
    · rwa [inf_eq_right.mpr h]
  have hmem2 : q.1 ⊔ q.2 ∈ l := by
    rcases le_total q.1 q.2 with h | h
    · rwa [sup_eq_right.mpr h]
    · rwa [sup_eq_left.mpr h]
  refine ⟨hmem1, hmem2, min_lt_max.mpr hne, ?_⟩
  have := pairScore_canon cnt q.1 q.2
  simp only [pairScore] at this ⊢
  rw [this]
  exact hsq

theorem canonical_mem_bestPairs {cnt : α → Nat} {l : List α} {m : Nat}
    (hm : minScore cnt l = some m) {x y : α} (hx : x ∈ l) (hy : y ∈ l)
    (hxy : x ≠ y) (hscore : max (cnt x) (cnt y) = m) :
    (x ⊓ y, x ⊔ y) ∈ bestPairs cnt l := by
  rcases allPairs_of_mem hx hy hxy with h | h
  · refine (mem_bestPairs_iff hm).mpr ⟨(x, y), h, ?_, rfl⟩
    simpa [pairScore] using hscore
  · refine (mem_bestPairs_iff hm).mpr ⟨(y, x), h, ?_, ?_⟩
    · simpa [pairScore, max_comm (cnt y) (cnt x)] using hscore
    · simp [inf_comm, sup_comm]

/-- C1: on a fresh assignment over n >= 2 distinct candidates, the chosen
pair is an unordered 2-element subset of the candidates whose score
max(count of first item, count of second item) - counts read from the
stratum tallies with absent entries as 0 - equals the minimum such score
over all candidate pairs, and every candidate pair achieving that minimum
score is a possible outcome of the random tie-break. -/
theorem assignPair_fresh_minimizes
    (st : DBState α) (uuid stratum0 : String) (apList : List α) (pick : Nat)
    (s : String) (cnt : α → Nat) (m : Nat)
    (hs : s = normalizeStratum stratum0)
    (hcnt : cnt = getApCount st s)
    (hnd : apList.Nodup) (hlen : 2 ≤ apList.length)
    (hfresh : findAllocation st uuid s = none)
    (hm : minScore cnt apList = some m) :
    (∃ x y, (assignPair st uuid stratum0 apList pick).1
        = .ok { pair := [x, y], stratum := s } ∧
        x ∈ apList ∧ y ∈ apList ∧ x ≠ y ∧ max (cnt x) (cnt y) = m) ∧
    (∀ x y, x ∈ apList → y ∈ apList → x ≠ y → m ≤ max (cnt x) (cnt y)) ∧
    (∀ x y, x ∈ apList → y ∈ apList → x ≠ y → max (cnt x) (cnt y) = m →
        ∃ pick2, (assignPair st uuid stratum0 apList pick2).1
          = .ok { pair := [x ⊓ y, x ⊔ y], stratum := s }) := by
  subst hs
  subst hcnt
  refine ⟨?_, ?_, ?_⟩
  · obtain ⟨p, hp, hres⟩ :=
      @freshAssign_selected_mem α _ st uuid (normalizeStratum stratum0) apList pick hlen
    obtain ⟨h1, h2, hlt, hsc⟩ := mem_bestPairs_shape hm hnd hp
    refine ⟨p.1, p.2, ?_, h1, h2, ne_of_lt hlt, hsc⟩
    rw [assignPair_of_fresh hfresh]
    exact hres
  · intro x y hx hy hxy
    rcases allPairs_of_mem hx hy hxy with h | h
    · simpa [pairScore] using minScore_le hm h
    · have := minScore_le hm h
      simp only [pairScore] at this
      rw [max_comm]
      simpa using this
  · intro x y hx hy hxy hscore
    have hp := canonical_mem_bestPairs hm hx hy hxy hscore
    obtain ⟨pick2, hres⟩ :=
      @freshAssign_mem_possible α _ st uuid (normalizeStratum stratum0) apList _ hp
    refine ⟨pick2, ?_⟩
    rw [assignPair_of_fresh hfresh]
    exact hres

/-- Witness for C1: the empty database, participant "u1", stratum "novice",
candidate pool [0, 1, 2], tie-break index 0, minimum score 0. -/
theorem assignPair_fresh_minimizes_witness :
    (("novice" : String) = normalizeStratum "novice" ∧
     ([0, 1, 2] : List Nat).Nodup ∧ 2 ≤ ([0, 1, 2] : List Nat).length ∧
     findAllocation emptyNat "u1" "novice" = none ∧
     minScore (getApCount emptyNat "novice") [0, 1, 2] = some 0) ∧
    ((∃ x y, (assignPair emptyNat "u1" "novice" [0, 1, 2] 0).1
        = .ok { pair := [x, y], stratum := "novice" } ∧
        x ∈ [0, 1, 2] ∧ y ∈ [0, 1, 2] ∧ x ≠ y ∧
        max (getApCount emptyNat "novice" x) (getApCount emptyNat "novice" y) = 0) ∧
     (∀ x y, x ∈ [0, 1, 2] → y ∈ [0, 1, 2] → x ≠ y →
        0 ≤ max (getApCount emptyNat "novice" x) (getApCount emptyNat "novice" y)) ∧
     (∀ x y, x ∈ [0, 1, 2] → y ∈ [0, 1, 2] → x ≠ y →
        max (getApCount emptyNat "novice" x) (getApCount emptyNat "novice" y) = 0 →
        ∃ pick2, (assignPair emptyNat "u1" "novice" [0, 1, 2] pick2).1
          = .ok { pair := [x ⊓ y, x ⊔ y], stratum := "novice" })) :=
  ⟨⟨rfl, by decide, by decide, rfl, rfl⟩,
   assignPair_fresh_minimizes emptyNat "u1" "novice" [0, 1, 2] 0 "novice"
     (getApCount emptyNat "novice") 0 rfl rfl (by decide) (by decide) rfl rfl⟩

/-- C10: a fresh allocation over distinct candidates returns its pair in
strictly ascending identifier order, whatever the order of the candidate
list, and any row it appends stores that same canonicalized pair. -/
theorem assignPair_fresh_sorted
    (st : DBState α) (uuid stratum0 : String) (apList : List α) (pick : Nat)
    (hnd : apList.Nodup) (hlen : 2 ≤ apList.length)
    (hfresh : findAllocation st uuid (normalizeStratum stratum0) = none) :
    ∃ x y, x < y ∧
      (assignPair st uuid stratum0 apList pick).1
        = .ok { pair := [x, y], stratum := normalizeStratum stratum0 } ∧
      ((assignPair st uuid stratum0 apList pick).2.allocations
          = st.allocations ++
            [{ uuid := uuid, stratum := normalizeStratum stratum0,
               assignment := { pair := [x, y],
                               stratum := normalizeStratum stratum0 } }] ∨
       (assignPair st uuid stratum0 apList pick).2.allocations
          = st.allocations) := by
  rcases hq : bestPairs (getApCount st (normalizeStratum stratum0)) apList
    with _ | ⟨q, qs⟩
  · exact absurd hq (bestPairs_ne_nil _ hlen)
  · obtain ⟨m, hm⟩ := minScore_some (getApCount st (normalizeStratum stratum0)) hlen
    have hselmem : (q :: qs).getD (pick % (q :: qs).length) q
        ∈ bestPairs (getApCount st (normalizeStratum stratum0)) apList := by
      rw [hq]
      exact getD_mod_mem (List.cons_ne_nil _ _) pick q
    obtain ⟨h1, h2, hlt, hsc⟩ := mem_bestPairs_shape hm hnd hselmem
    refine ⟨_, _, hlt, ?_, ?_⟩
    · rw [assignPair_of_fresh hfresh]
      exact freshAssign_result pick hq
    · rw [assignPair_of_fresh hfresh]
      simp only [freshAssign, hq]
      split
      · right
        rfl
      · left
        rfl

/-- Witness for C10: empty database, candidates listed in descending order
[2, 1, 0]; the returned pair is nevertheless ascending. -/
theorem assignPair_fresh_sorted_witness :
    (([2, 1, 0] : List Nat).Nodup ∧ 2 ≤ ([2, 1, 0] : List Nat).length ∧
     findAllocation emptyNat "u1" "novice" = none) ∧
    (∃ x y, x < y ∧
      (assignPair emptyNat "u1" "novice" [2, 1, 0] 0).1
        = .ok { pair := [x, y], stratum := normalizeStratum "novice" } ∧
      ((assignPair emptyNat "u1" "novice" [2, 1, 0] 0).2.allocations
          = emptyNat.allocations ++
            [{ uuid := "u1", stratum := normalizeStratum "novice",
               assignment := { pair := [x, y],
                               stratum := normalizeStratum "novice" } }] ∨
       (assignPair emptyNat "u1" "novice" [2, 1, 0] 0).2.allocations
          = emptyNat.allocations)) :=
  ⟨⟨by decide, by decide, rfl⟩,
   assignPair_fresh_sorted emptyNat "u1" "novice" [2, 1, 0] 0
     (by decide) (by decide) rfl⟩

/-- C3 (amended): when the first successful `assign` call for
(participant, stratum) actually persisted its Allocation row - which is the
case exactly when the participant held no prior row in any stratum, since
the insert's conflict target is the uuid column alone - every later call
with the same (participant_id, stratum), even with a different candidates
argument and a different tie-break, returns that identical stored pair and
leaves the state unchanged. -/
theorem assignPair_idempotent_after_persisted
    (st : DBState α) (uuid stratum0 : String) (cands cands2 : List α)
    (pick pick2 : Nat) (asg : Assignment α) (st2 : DBState α)
    (hno : ∀ r ∈ st.allocations, r.uuid ≠ uuid)
    (h1 : assignPair st uuid stratum0 cands pick = (.ok asg, st2)) :
    assignPair st2 uuid stratum0 cands2 pick2 = (.ok asg, st2) := by
  have hfresh : findAllocation st uuid (normalizeStratum stratum0) = none := by
    apply List.find?_eq_none.mpr
    intro r hr
    simp only [Bool.and_eq_true, beq_iff_eq, not_and]
    intro hu
    exact absurd hu (hno r hr)
  rw [assignPair_of_fresh hfresh] at h1
  rcases hq : bestPairs (getApCount st (normalizeStratum stratum0)) cands
    with _ | ⟨q, qs⟩
  · simp [freshAssign, hq] at h1
  · have hany : (st.allocations.any fun r => r.uuid == uuid) = false := by
      apply List.any_eq_false.mpr
      intro r hr
      simpa using hno r hr
    simp only [freshAssign, hq, hany, Bool.false_eq_true, if_false] at h1
    obtain ⟨hasg, hst2⟩ := Prod.mk.injEq .. |>.mp h1
    have hasg' := Except.ok.injEq .. |>.mp hasg
    have hfound : findAllocation st2 uuid (normalizeStratum stratum0)
        = some { uuid := uuid, stratum := normalizeStratum stratum0,
                 assignment := asg } := by
      rw [← hst2]
      simp only [findAllocation, List.find?_append]
      have hnone : (st.allocations.find? fun r =>
          r.uuid == uuid && r.stratum == normalizeStratum stratum0) = none := hfresh
      rw [hnone, ← hasg']
      simp [List.find?]
    rw [assignPair_of_found hfound]

/-- Witness for the amended C3: from the empty database, the first call for
("u1", "novice") persists pair [0, 1]; a later call with different
candidates and a different tie-break returns the same stored pair and
leaves the state unchanged. -/
theorem assignPair_idempotent_after_persisted_witness :
    ((∀ r ∈ emptyNat.allocations, r.uuid ≠ "u1") ∧
     assignPair emptyNat "u1" "novice" [0, 1, 2] 0
       = (.ok { pair := [0, 1], stratum := "novice" },
          (assignPair emptyNat "u1" "novice" [0, 1, 2] 0).2)) ∧
    assignPair (assignPair emptyNat "u1" "novice" [0, 1, 2] 0).2
        "u1" "novice" [9, 8, 7] 5
      = (.ok { pair := [0, 1], stratum := "novice" },
         (assignPair emptyNat "u1" "novice" [0, 1, 2] 0).2) :=
  ⟨⟨by simp [emptyNat, DBState.empty], rfl⟩,
   assignPair_idempotent_after_persisted emptyNat "u1" "novice" [0, 1, 2]
     [9, 8, 7] 0 5 _ _ (by simp [emptyNat, DBState.empty]) rfl⟩

/-- Counterexample to C3 as stated: participant "u" already holds a row in
stratum "s1"; a first assign call for the key ("u", "s2") succeeds and
returns [0, 1], but its insert is dropped on the uuid conflict (the state
is unchanged), so a later call for the same ("u", "s2") re-computes and
re-randomizes, and with tie-break index 1 returns the different pair
[0, 2]. -/
theorem assignPair_not_idempotent_counterexample :
    assignPair twoStrataState "u" "s2" [0, 1, 2] 0
      = (.ok { pair := [0, 1], stratum := "s2" }, twoStrataState) ∧
    assignPair twoStrataState "u" "s2" [0, 1, 2] 1
      = (.ok { pair := [0, 2], stratum := "s2" }, twoStrataState) ∧
    ({ pair := [0, 1], stratum := "s2" } : Assignment Nat)
      ≠ { pair := [0, 2], stratum := "s2" } :=
  ⟨rfl, rfl, by decide⟩

/-- C4: evaluation at the failing input. Participant "u" already holds an
allocation in stratum "s1" (the only row); a first assign call for the new
key ("u", "s2") finds no row for that key and computes a pair, but
persists nothing: the insert is dropped on its uuid-only conflict target
and the state is returned unchanged, so ("u", "s2") never receives its own
row. -/
theorem allocation_second_stratum_not_persisted :
    twoStrataState.allocations
      = [{ uuid := "u", stratum := "s1",
           assignment := { pair := [0, 1], stratum := "s1" } }] ∧
    findAllocation twoStrataState "u" "s2" = none ∧
    assignPair twoStrataState "u" "s2" [0, 1, 2] 0
      = (.ok { pair := [0, 1], stratum := "s2" }, twoStrataState) :=
  ⟨rfl, rfl, rfl⟩

/-- C5: evaluation at the racing schedule. Both calls for ("u", "s") pass
the existence check against the empty database; the first commits pair
[0, 1] (state `racedState`); the second's continuation then runs against
`racedState`, loses the insert (DO NOTHING, state unchanged), and returns
its freshly computed pair [0, 2] - not the stored winner [0, 1], which is
never re-read. -/
theorem conflict_returns_fresh_not_stored :
    findAllocation emptyNat "u" "s" = none ∧
    assignPair emptyNat "u" "s" [0, 1, 2] 0
      = (.ok { pair := [0, 1], stratum := "s" }, racedState) ∧
    freshAssign racedState "u" "s" [0, 1, 2] 1
      = (.ok { pair := [0, 2], stratum := "s" }, racedState) ∧
    findAllocation racedState "u" "s"
      = some { uuid := "u", stratum := "s",
               assignment := { pair := [0, 1], stratum := "s" } } ∧
    ({ pair := [0, 2], stratum := "s" } : Assignment Nat)
      ≠ { pair := [0, 1], stratum := "s" } :=
  ⟨rfl, rfl, rfl, rfl, by decide⟩

/-- Counterexample to C2: over the fixed pool [0, 1, 2] in stratum
"novice", round 1 (assign + record for "u1") leaves tallies (1, 1, 0); at
round 2 every pair scores 1, so assign for the fresh participant "u2" may
return [0, 1] - excluding the count-0 item 2 - and after recording it the
tallies are (2, 2, 0): items 0 and 1 exceed the minimum tally by 2 after
k = 2 rounds. -/
theorem convergence_counterexample :
    secondRoundPair 0 0 = some [0, 1] ∧
    twoRoundCount 0 0 0 = some 2 ∧
    twoRoundCount 0 0 1 = some 2 ∧
    twoRoundCount 0 0 2 = some 0 :=
  ⟨rfl, rfl, rfl, rfl⟩

/-- C2 (amended): the least-filled-bucket convergence bound does not hold.
After round 1 the tallies are (1, 1, 0) and all three pairs tie at score
1, so the round-2 assign is not forced to include the count-0 item: each
tie-break is possible, and only the picks containing item 2 keep the
spread at 1, while pick 0 (pair [0, 1]) drives the spread to 2. -/
theorem convergence_amended :
    roundState emptyNat "u1" "novice" [0, 1, 2] 0 = some afterRound1 ∧
    getApCount afterRound1 "novice" 0 = 1 ∧
    getApCount afterRound1 "novice" 1 = 1 ∧
    getApCount afterRound1 "novice" 2 = 0 ∧
    bestPairs (getApCount afterRound1 "novice") [0, 1, 2]
      = [(0, 1), (0, 2), (1, 2)] ∧
    secondRoundPair 0 1 = some [0, 2] ∧
    twoRoundCount 0 1 0 = some 2 ∧
    twoRoundCount 0 1 1 = some 1 ∧
    twoRoundCount 0 1 2 = some 1 ∧
    secondRoundPair 0 2 = some [1, 2] ∧
    twoRoundCount 0 2 0 = some 1 ∧
    twoRoundCount 0 2 1 = some 2 ∧
    twoRoundCount 0 2 2 = some 1 :=
  ⟨rfl, rfl, rfl, rfl, rfl, rfl, rfl, rfl, rfl, rfl, rfl, rfl, rfl⟩

/-- Counterexample to C6: with a valid participant id and a 1-entry
candidate list, the endpoint fails with the generic 500 internal error
raised by Python's `min` on the empty pair list, not with the claimed
400 client-input validation failure. -/
theorem validation_one_candidate_counterexample :
    assignEndpoint emptyNat (some "u") (some "novice") (some [5]) 0
      = (.error (.internal "min() arg is an empty sequence"), emptyNat) ∧
    isClientInputError
      (assignEndpoint emptyNat (some "u") (some "novice") (some [5]) 0)
      = false :=
  ⟨rfl, rfl⟩

/-- C6 (amended): a missing or empty participant id fails with a 400
client-input error, as does a missing or empty candidate list; a 1-entry
candidate list whose key holds no stored allocation instead fails with the
500 internal error from `min` on an empty sequence. In every failing case
the state is returned unchanged, so no Allocation row is created. -/
theorem assignEndpoint_validation
    (st : DBState α) (ps : Option String) (pl : Option (List α)) (pick : Nat)
    (u : String) (a : α) (hu : u ≠ "")
    (hfresh : findAllocation st u (normalizeStratum (ps.getD "global")) = none) :
    assignEndpoint st none ps pl pick
      = (.error (.badRequest "p_uuid is required"), st) ∧
    assignEndpoint st (some "") ps pl pick
      = (.error (.badRequest "p_uuid is required"), st) ∧
    assignEndpoint st (some u) ps (some []) pick
      = (.error (.badRequest "p_ap_list is required"), st) ∧
    assignEndpoint st (some u) ps none pick
      = (.error (.badRequest "p_ap_list is required"), st) ∧
    assignEndpoint st (some u) ps (some [a]) pick
      = (.error (.internal "min() arg is an empty sequence"), st) := by
  have h5 : assignPair st u (ps.getD "global") [a] pick
      = (.error (.valueError "min() arg is an empty sequence"), st) := by
    rw [assignPair_of_fresh hfresh]
    rfl
  refine ⟨?_, ?_, ?_, ?_, ?_⟩
  · simp [assignEndpoint]
  · simp [assignEndpoint]
  · simp [assignEndpoint, hu]
  · simp [assignEndpoint, hu]
  · simp [assignEndpoint, hu, h5, errMessage]

/-- Witness for the amended C6: the empty database, stratum "novice",
participant "u1", spare candidate 5. -/
theorem assignEndpoint_validation_witness :
    (("u1" : String) ≠ "" ∧
     findAllocation emptyNat "u1"
       (normalizeStratum ((some "novice").getD "global")) = none) ∧
    (assignEndpoint emptyNat none (some "novice") (some [0, 1]) 0
       = (.error (.badRequest "p_uuid is required"), emptyNat) ∧
     assignEndpoint emptyNat (some "") (some "novice") (some [0, 1]) 0
       = (.error (.badRequest "p_uuid is required"), emptyNat) ∧
     assignEndpoint emptyNat (some "u1") (some "novice") (some []) 0
       = (.error (.badRequest "p_ap_list is required"), emptyNat) ∧
     assignEndpoint emptyNat (some "u1") (some "novice") none 0
       = (.error (.badRequest "p_ap_list is required"), emptyNat) ∧
     assignEndpoint emptyNat (some "u1") (some "novice") (some [5]) 0
       = (.error (.internal "min() arg is an empty sequence"), emptyNat)) :=
  ⟨⟨by decide, rfl⟩,
   assignEndpoint_validation emptyNat (some "novice") (some [0, 1]) 0 "u1" 5
     (by decide) rfl⟩

/-- C7: for a pair [a, b] of two distinct items, `increment_pair_count`
succeeds, increments the stratum item tally of a and of b by exactly 1
each (an absent row starting from 0), increments the canonical
(min(a,b), max(a,b)) pair tally by exactly 1, hits that same canonical
pair row when called with [b, a], and changes no other item tally row, no
other pair tally row, and no allocation. -/
theorem increment_pair_count_effects
    (st : DBState α) (stratum0 : String) (a b : α) (s : String)
    (hab : a ≠ b) (hs : s = normalizeStratum stratum0) :
    (increment_pair_count st stratum0 [a, b]).1 = .ok () ∧
    (increment_pair_count st stratum0 [a, b]).2.apTypeCounts s a
      = some ((st.apTypeCounts s a).getD 0 + 1) ∧
    (increment_pair_count st stratum0 [a, b]).2.apTypeCounts s b
      = some ((st.apTypeCounts s b).getD 0 + 1) ∧
    (increment_pair_count st stratum0 [a, b]).2.pairCounts s (a ⊓ b) (a ⊔ b)
      = some ((st.pairCounts s (a ⊓ b) (a ⊔ b)).getD 0 + 1) ∧
    (increment_pair_count st stratum0 [b, a]).2.pairCounts s (a ⊓ b) (a ⊔ b)
      = some ((st.pairCounts s (a ⊓ b) (a ⊔ b)).getD 0 + 1) ∧
    (increment_pair_count st stratum0 [b, a]).2.pairCounts s (a ⊔ b) (a ⊓ b)
      = st.pairCounts s (a ⊔ b) (a ⊓ b) ∧
    (∀ s2 t, ¬(s2 = s ∧ (t = a ∨ t = b)) →
      (increment_pair_count st stratum0 [a, b]).2.apTypeCounts s2 t
        = st.apTypeCounts s2 t) ∧
    (∀ s2 x y, ¬(s2 = s ∧ x = a ⊓ b ∧ y = a ⊔ b) →
      (increment_pair_count st stratum0 [a, b]).2.pairCounts s2 x y
        = st.pairCounts s2 x y) ∧
    (increment_pair_count st stratum0 [a, b]).2.allocations = st.allocations := by
  subst hs
  refine ⟨rfl, ?_, ?_, ?_, ?_, ?_, ?_, ?_, rfl⟩
  · simp [increment_pair_count, incrementApType, incrementPairKey, hab]
  · simp [increment_pair_count, incrementApType, incrementPairKey, hab.symm]
  · simp [increment_pair_count, incrementApType, incrementPairKey]
  · simp [increment_pair_count, incrementApType, incrementPairKey,
      inf_comm b a, sup_comm b a]
  · have hne : a ⊔ b ≠ b ⊓ a := by
      rw [inf_comm]
      exact (min_lt_max.mpr hab).ne'
    simp [increment_pair_count, incrementApType, incrementPairKey, hne]
  · intro s2 t hne
    simp only [increment_pair_count, incrementApType, incrementPairKey]
    push_neg at hne
    by_cases h1 : s2 = normalizeStratum stratum0
    · have ha : t ≠ a := fun h => (hne h1).1 h
      have hb : t ≠ b := fun h => (hne h1).2 h
      simp [h1, ha, hb]
    · simp [h1]
  · intro s2 x y hne
    simp only [increment_pair_count, incrementApType, incrementPairKey]
    push_neg at hne
    by_cases h1 : s2 = normalizeStratum stratum0
    · by_cases h2 : x = a ⊓ b
      · have h3 : y ≠ a ⊔ b := hne h1 h2
        simp [h1, h2, h3]
      · simp [h1, h2]
    · simp [h1]

/-- Witness for C7: empty database, empty stratum (normalized "global"),
pair [0, 1]. -/
theorem increment_pair_count_effects_witness :
    ((0 : Nat) ≠ 1 ∧ ("global" : String) = normalizeStratum "") ∧
    ((increment_pair_count emptyNat "" [0, 1]).1 = .ok () ∧
     (increment_pair_count emptyNat "" [0, 1]).2.apTypeCounts "global" 0
       = some ((emptyNat.apTypeCounts "global" 0).getD 0 + 1) ∧
     (increment_pair_count emptyNat "" [0, 1]).2.apTypeCounts "global" 1
       = some ((emptyNat.apTypeCounts "global" 1).getD 0 + 1) ∧
     (increment_pair_count emptyNat "" [0, 1]).2.pairCounts "global"
         ((0 : Nat) ⊓ 1) ((0 : Nat) ⊔ 1)
       = some ((emptyNat.pairCounts "global" ((0 : Nat) ⊓ 1) ((0 : Nat) ⊔ 1)).getD 0 + 1) ∧
     (increment_pair_count emptyNat "" [1, 0]).2.pairCounts "global"
         ((0 : Nat) ⊓ 1) ((0 : Nat) ⊔ 1)
       = some ((emptyNat.pairCounts "global" ((0 : Nat) ⊓ 1) ((0 : Nat) ⊔ 1)).getD 0 + 1) ∧
     (increment_pair_count emptyNat "" [1, 0]).2.pairCounts "global"
         ((0 : Nat) ⊔ 1) ((0 : Nat) ⊓ 1)
       = emptyNat.pairCounts "global" ((0 : Nat) ⊔ 1) ((0 : Nat) ⊓ 1) ∧
     (∀ s2 t, ¬(s2 = "global" ∧ (t = 0 ∨ t = 1)) →
       (increment_pair_count emptyNat "" [0, 1]).2.apTypeCounts s2 t
         = emptyNat.apTypeCounts s2 t) ∧
     (∀ s2 x y, ¬(s2 = "global" ∧ x = (0 : Nat) ⊓ 1 ∧ y = (0 : Nat) ⊔ 1) →
       (increment_pair_count emptyNat "" [0, 1]).2.pairCounts s2 x y
         = emptyNat.pairCounts s2 x y) ∧
     (increment_pair_count emptyNat "" [0, 1]).2.allocations
       = emptyNat.allocations) :=
  ⟨⟨by decide, rfl⟩,
   increment_pair_count_effects emptyNat "" 0 1 "global" (by decide) rfl⟩

/-- C8: record_response with a pair that does not contain exactly 2
elements fails with the ValueError and returns the state unchanged: no
item tally and no pair tally is touched. -/
theorem increment_pair_count_invalid_length
    (st : DBState α) (stratum0 : String) (pair : List α)
    (h : pair.length ≠ 2) :
    increment_pair_count st stratum0 pair
      = (.error (.valueError "Pair must contain exactly 2 items"), st) := by
  match pair, h with
  | [], _ => rfl
  | [a], _ => rfl
  | a :: b :: c :: rest, _ => rfl
  | [a, b], h => exact absurd rfl h

/-- Witness for C8: a 3-element pair on the empty database. -/
theorem increment_pair_count_invalid_length_witness :
    ([0, 1, 2] : List Nat).length ≠ 2 ∧
    increment_pair_count emptyNat "novice" [0, 1, 2]
      = (.error (.valueError "Pair must contain exactly 2 items"), emptyNat) :=
  ⟨by decide, increment_pair_count_invalid_length emptyNat "novice" [0, 1, 2]
    (by decide)⟩

/-- C9 (amended): an absent or empty stratum is normalized to the sentinel
"global": assign and record_response behave identically for stratum ""
and stratum "global", the endpoint defaults an absent stratum to
"global", and a normalized stratum is never the empty string. Only
Python-falsy strata (absent or "") are normalized, so this does not
extend to whitespace-only ("blank" but non-empty) strata. -/
theorem stratum_empty_normalized_global
    (st : DBState α) (uuid : String) (apList pair : List α) (pick : Nat)
    (pu : Option String) (pl : Option (List α)) :
    assignPair st uuid "" apList pick
      = assignPair st uuid "global" apList pick ∧
    increment_pair_count st "" pair
      = increment_pair_count st "global" pair ∧
    assignEndpoint st pu none pl pick
      = assignEndpoint st pu (some "global") pl pick ∧
    normalizeStratum "" = "global" ∧
    (∀ s0 : String, normalizeStratum s0 ≠ "") := by
  refine ⟨rfl, ?_, rfl, rfl, ?_⟩
  · match pair with
    | [] => rfl
    | [x] => rfl
    | [x, y] => rfl
    | x :: y :: z :: rest => rfl
  · intro s0
    unfold normalizeStratum
    by_cases h : s0 = ""
    · simp [h]
    · simp [h]

/-- Counterexample to C9: a whitespace-only ("blank") stratum " " is not
normalized to "global": record_response writes the item tally under the
key " " and nothing under "global", and assign persists an Allocation row
whose stratum is the blank string " ". -/
theorem blank_stratum_counterexample :
    normalizeStratum " " = " " ∧
    (increment_pair_count emptyNat " " [0, 1]).2.apTypeCounts " " 0 = some 1 ∧
    (increment_pair_count emptyNat " " [0, 1]).2.apTypeCounts "global" 0 = none ∧
    (assignPair emptyNat "u" " " [0, 1] 0).2.allocations
      = [{ uuid := "u", stratum := " ",
           assignment := { pair := [0, 1], stratum := " " } }] ∧
    (" " : String) ≠ "global" ∧ (" " : String) ≠ "" :=
  ⟨rfl, rfl, rfl, rfl, by decide, by decide⟩

/-- Witness instance of the amended C9 at concrete arguments. -/
theorem stratum_empty_normalized_global_witness :
    assignPair emptyNat "u1" "" [0, 1] 0
      = assignPair emptyNat "u1" "global" [0, 1] 0 ∧
    increment_pair_count emptyNat "" [0, 1]
      = increment_pair_count emptyNat "global" [0, 1] ∧
    assignEndpoint emptyNat (some "u1") none (some [0, 1]) 0
      = assignEndpoint emptyNat (some "u1") (some "global") (some [0, 1]) 0 ∧
    normalizeStratum "" = "global" ∧
    (∀ s0 : String, normalizeStratum s0 ≠ "") :=
  stratum_empty_normalized_global emptyNat "u1" [0, 1] [0, 1] 0
    (some "u1") (some [0, 1])

end Surveys
